import Mathlib

/-!
Verification development for the earthquake ETL pipeline (`src/app.py`).

The Python program is a single linear pipeline: fetch a GeoJSON feature
collection over HTTP, enrich each feature into a flat record with derived
categorical fields, and write the result as CSV.  We embed the pure parts
shallowly:

* floats become `ℚ` — every comparison in the program is against an
  integer or short-decimal threshold, and IEEE doubles compare exactly the
  same way as their exact rational values on such thresholds;
* the pandas column operations (`pd.cut`, `str.extract` with the regex
  `,\s*([^,]+)$`, `dt.hour`, `apply`) are modelled per row, with a missing
  value (`NaN`) rendered as `Option.none`;
* Python dictionary access raising `KeyError` / list indexing raising
  `IndexError` is modelled with `Except String`;
* the HTTP layer is modelled by a request-outcome datatype; `requests`
  raises a `RequestException` for connection errors and timeouts,
  `response.raise_for_status()` raises (a `RequestException` subclass)
  exactly for status codes 400–599, and `response.json()` raises a
  `RequestException` subclass when the body is not valid JSON.
-/

namespace EarthquakeETL

/-- `get_continent(lat, lon)` from `app.py`: ordered bounding-box checks,
first match wins, `"Ocean"` as the default. -/
def get_continent (lat lon : ℚ) : String :=
  if -120 ≤ lon ∧ lon ≤ -30 ∧ 30 ≤ lat ∧ lat ≤ 70 then "North America"
  else if -20 ≤ lon ∧ lon ≤ 50 ∧ -35 ≤ lat ∧ lat ≤ 37 then "Africa"
  else if -10 ≤ lon ∧ lon ≤ 40 ∧ 35 ≤ lat ∧ lat ≤ 70 then "Europe"
  else if 60 ≤ lon ∧ lon ≤ 150 ∧ 5 ≤ lat ∧ lat ≤ 45 then "Asia"
  else if 110 ≤ lon ∧ lon ≤ 180 ∧ -50 ≤ lat ∧ lat ≤ -10 then "Australia"
  else if -90 ≤ lon ∧ lon ≤ -30 ∧ -60 ≤ lat ∧ lat ≤ 15 then "South America"
  else "Ocean"

/-- The membership test of one bounding box of `get_continent`, as a
Boolean, for stating order-sensitivity of the classifier. -/
def inBox (lonLo lonHi latLo latHi : ℚ) (lat lon : ℚ) : Bool :=
  decide (lonLo ≤ lon ∧ lon ≤ lonHi ∧ latLo ≤ lat ∧ lat ≤ latHi)

/-- The six labelled bounding boxes of `get_continent`, in source order:
(label, lonLo, lonHi, latLo, latHi). -/
def continentBoxes : List (String × ℚ × ℚ × ℚ × ℚ) :=
  [("North America", -120, -30, 30, 70),
   ("Africa", -20, 50, -35, 37),
   ("Europe", -10, 40, 35, 70),
   ("Asia", 60, 150, 5, 45),
   ("Australia", 110, 180, -50, -10),
   ("South America", -90, -30, -60, 15)]

/-- First-match-wins reading of the classifier: scan `continentBoxes` in
order, return the label of the first box containing the point, `"Ocean"`
when none does. -/
def firstMatchContinent (lat lon : ℚ) : String :=
  match continentBoxes.find?
      (fun b => inBox b.2.1 b.2.2.1 b.2.2.2.1 b.2.2.2.2 lat lon) with
  | some b => b.1
  | none => "Ocean"

/-- The seven possible outputs of the classifier. -/
def continentLabels : List String :=
  ["North America", "Africa", "Europe", "Asia", "Australia",
   "South America", "Ocean"]

/-- `pd.cut(x, bins, labels)` with default `right=True`, per scalar value:
the value falls in the first (hence unique, the edges being increasing)
half-open interval `(lo, hi]` formed by consecutive edges, and gets that
interval's label; a value outside every interval gets `NaN` (`none`). -/
def pdCut (x : ℚ) : List ℚ → List String → Option String
  | lo :: hi :: edges, lab :: labs =>
      if lo < x ∧ x ≤ hi then some lab else pdCut x (hi :: edges) labs
  | _, _ => none

/-- The `severity` column: `pd.cut(magnitude, bins=[0,3,5,7,10],
labels=['leve','moderado','fuerte','grave'])`. -/
def severity (m : ℚ) : Option String :=
  pdCut m [0, 3, 5, 7, 10] ["leve", "moderado", "fuerte", "grave"]

/-- The `depth_category` column: `pd.cut(depth_km, bins=[0,30,100,300,700],
labels=['superficial','intermedio','profundo','manto'])`. -/
def depth_category (d : ℚ) : Option String :=
  pdCut d [0, 30, 100, 300, 700] ["superficial", "intermedio", "profundo", "manto"]

/-- `\s` of the Python regex engine, on the ASCII range that the data
uses: space, tab, newline, carriage return, vertical tab, form feed. -/
def isPySpace (c : Char) : Bool :=
  c = ' ' ∨ c = '\t' ∨ c = '\n' ∨ c = '\r' ∨ c = '\x0b' ∨ c = '\x0c'

/-- The suffix of the character list strictly after its last comma;
`none` when there is no comma. -/
def suffixAfterLastComma : List Char → Option (List Char)
  | [] => none
  | c :: cs =>
      match suffixAfterLastComma cs with
      | some t => some t
      | none => if c = ',' then some cs else none

/-- The regex piece `([^,]+)$`: succeeds iff the remaining text is
nonempty and comma-free, capturing all of it (greedy `+` runs to the end
of the string, where `$` holds). -/
def plusNotCommaToEnd (t : List Char) : Option (List Char) :=
  if !t.isEmpty && t.all (fun c => c != ',') then some t else none

/-- The regex piece `\s*([^,]+)$` with the engine's greedy-then-backtrack
semantics: `\s*` first consumes as much whitespace as it can, and gives
characters back one at a time until `([^,]+)$` succeeds on the rest. -/
def wsStarThenCapture : List Char → Option (List Char)
  | [] => none
  | c :: cs =>
      if isPySpace c then
        match wsStarThenCapture cs with
        | some r => some r
        | none => plusNotCommaToEnd (c :: cs)
      else plusNotCommaToEnd (c :: cs)

/-- The `region` column: `place.str.extract(r',\s*([^,]+)$')`, i.e. the
group captured by the first (and only possible) match of the pattern.
Because `[^,]+` and `\s*` cannot cross a comma and `$` anchors at the end,
a match can only start at the last comma of the string, so the search
reduces to running `\s*([^,]+)$` on the suffix after the last comma. -/
def extractRegion (s : String) : Option String :=
  match suffixAfterLastComma s.data with
  | none => none
  | some t => (wsStarThenCapture t).map (fun l => String.mk l)

/-- Modelled from the spec (claim C8 wording): "the substring after the
final comma of the place", verbatim, absent when there is no comma. -/
def regionSpecLiteral (s : String) : Option String :=
  (suffixAfterLastComma s.data).map (fun l => String.mk l)

/-- What the regex actually computes, phrased directly: the suffix after
the final comma with its leading whitespace removed; when that suffix is
nonempty but all whitespace, its last character; absent when there is no
comma or nothing follows the final comma. -/
def trimmedSuffix (t : List Char) : Option (List Char) :=
  if t.isEmpty then none
  else
    let u := t.dropWhile isPySpace
    if !u.isEmpty then some u
    else t.getLast?.map (fun c => [c])

/-- Direct-description reading of the `region` column, to be proved equal
to the regex-semantics reading `extractRegion`. -/
def regionDescribed (s : String) : Option String :=
  match suffixAfterLastComma s.data with
  | none => none
  | some t => (trimmedSuffix t).map (fun l => String.mk l)

/-- `dt.hour` of `pd.to_datetime(ms, unit='ms')`: the hour-of-day of the
UTC timestamp `ms` milliseconds from the epoch (floor division, so
pre-epoch times also land in 0–23). -/
def hourOfMs (ms : Int) : Int :=
  (Int.fdiv ms 3600000).emod 24

/-- The `time_of_day` column: `'noche' if hour < 6 or hour >= 18 else 'dia'`. -/
def time_of_day (ms : Int) : String :=
  if hourOfMs ms < 6 ∨ 18 ≤ hourOfMs ms then "noche" else "dia"

/-- The `properties` object of a GeoJSON feature.  Each required key is an
`Option`: `none` models the key being absent from the JSON object, which
in Python makes the subscript raise `KeyError`. -/
structure Properties where
  time : Option Int
  mag : Option ℚ
  place : Option String
  type : Option String
  status : Option String
deriving Repr, DecidableEq

/-- The `geometry` object; `coordinates` is `[lon, lat, depth]` when well
formed, `none` when the key is absent. -/
structure Geometry where
  coordinates : Option (List ℚ)
deriving Repr, DecidableEq

/-- One element of the `features` array. -/
structure Feature where
  properties : Properties
  geometry : Geometry
deriving Repr, DecidableEq

/-- The parsed top-level JSON document (`raw_data`), keyed by `features`. -/
structure RawData where
  features : List Feature
deriving Repr, DecidableEq

/-- The flat record built by the loop body of `process_data` for one
feature, before the column derivations. -/
structure BaseRecord where
  time : Int
  magnitude : ℚ
  place : String
  depth_km : ℚ
  longitude : ℚ
  latitude : ℚ
  type : String
  status : String
deriving Repr, DecidableEq

/-- One row of the enriched DataFrame.  `region`, `severity` and
`depth_category` are `Option` because pandas leaves `NaN` there when the
regex does not match or the value falls outside every bin.  The two purely
numeric derived columns are not carried: `energy_joules` is
`10 ** (1.5*magnitude + 4.8)`, an irrational power no verified property
mentions, and `coast_distance_km` adds fresh Gaussian noise per run, so it
is not a function of the input at all. -/
structure EnrichedEvent where
  time : Int
  magnitude : ℚ
  place : String
  depth_km : ℚ
  longitude : ℚ
  latitude : ℚ
  type : String
  status : String
  region : Option String
  severity : Option String
  depth_category : Option String
  time_of_day : String
  continent : String
deriving Repr, DecidableEq

/-- Python `obj[key]`: the value when the key is present, `KeyError`
otherwise. -/
def keyed (o : Option α) (err : String) : Except String α :=
  match o with
  | some a => Except.ok a
  | none => Except.error err

/-- Python `lst[i]` for a non-negative index: the element when `i` is in
range, `IndexError` otherwise. -/
def item (l : List ℚ) (i : Nat) : Except String ℚ :=
  match l.get? i with
  | some x => Except.ok x
  | none => Except.error "IndexError: list index out of range"

/-- The loop body of `process_data`: build the flat dict for one feature,
accessing the keys in source order (`time`, `mag`, `place`, then
`coordinates[2]`, `coordinates[0]`, `coordinates[1]`, then `type`,
`status`); the first absent key or out-of-range index aborts with the
corresponding exception. -/
def buildRecord (f : Feature) : Except String BaseRecord := do
  let time ← keyed f.properties.time "KeyError: time"
  let mag ← keyed f.properties.mag "KeyError: mag"
  let place ← keyed f.properties.place "KeyError: place"
  let coords ← keyed f.geometry.coordinates "KeyError: coordinates"
  let depth ← item coords 2
  let lon ← item coords 0
  let lat ← item coords 1
  let ty ← keyed f.properties.type "KeyError: type"
  let st ← keyed f.properties.status "KeyError: status"
  Except.ok ⟨time, mag, place, depth, lon, lat, ty, st⟩

/-- The `for feature in raw_data['features']` loop: records in input
order; one failing feature aborts the whole loop. -/
def buildRecords : List Feature → Except String (List BaseRecord)
  | [] => Except.ok []
  | f :: fs => do
      let b ← buildRecord f
      let bs ← buildRecords fs
      Except.ok (b :: bs)

/-- The column derivations of `process_data`, per row. -/
def enrich (b : BaseRecord) : EnrichedEvent :=
  { time := b.time
    magnitude := b.magnitude
    place := b.place
    depth_km := b.depth_km
    longitude := b.longitude
    latitude := b.latitude
    type := b.type
    status := b.status
    region := extractRegion b.place
    severity := severity b.magnitude
    depth_category := depth_category b.depth_km
    time_of_day := time_of_day b.time
    continent := get_continent b.latitude b.longitude }

/-- `process_data(raw_data)`.  `if not raw_data: return pd.DataFrame()`
handles the null input; otherwise the records are built and the column
derivations applied.  When the features list is empty, `pd.DataFrame([])`
is an empty frame with NO columns, and the very first derivation,
`pd.to_datetime(df['time'], unit='ms')`, raises `KeyError: time` — the
empty collection does not yield an empty table, it aborts. -/
def process_data (raw : Option RawData) : Except String (List EnrichedEvent) :=
  match raw with
  | none => Except.ok []
  | some rd => do
      let base ← buildRecords rd.features
      if base.isEmpty then Except.error "KeyError: time"
      else Except.ok (base.map enrich)

/-- The observable effect of `save_to_csv`: whether a file was written,
and the console message printed. -/
structure WriteOutcome where
  fileWritten : Bool
  message : String
deriving Repr, DecidableEq

/-- `save_to_csv(df, filename)`: writes `datos/<filename>` when the frame
is non-empty, otherwise writes nothing and prints the no-data message. -/
def save_to_csv (rows : List EnrichedEvent) (filename : String) : WriteOutcome :=
  if rows.isEmpty then ⟨false, "No hay datos para guardar"⟩
  else ⟨true, "Datos guardados en: datos/" ++ filename⟩

/-- The possible outcomes of `requests.get(USGS_API_URL, params=PARAMS)`:
a `RequestException` raised during the request (connection error, timeout,
…), or a response with a status code and a body.  The body is `some`
parsed document when it is valid JSON, `none` when `response.json()` would
raise (a `RequestException` subclass in requests ≥ 2.27). -/
inductive HttpOutcome where
  | requestError (msg : String)
  | timeout (msg : String)
  | response (status : Nat) (body : Option RawData)
deriving Repr, DecidableEq

/-- The observable result of `fetch_earthquake_data`: the returned value
(`none` models Python `None`) and whether the error branch printed. -/
structure FetchResult where
  data : Option RawData
  errorLogged : Bool
deriving Repr, DecidableEq

/-- `fetch_earthquake_data()`: `raise_for_status()` raises `HTTPError`
exactly for status codes 400–599; every `RequestException` (connection
error, timeout, HTTP error, JSON decode error) is caught, logged and
turned into `None`; any other response returns the parsed body. -/
def fetch_earthquake_data (o : HttpOutcome) : FetchResult :=
  match o with
  | HttpOutcome.requestError _ => ⟨none, true⟩
  | HttpOutcome.timeout _ => ⟨none, true⟩
  | HttpOutcome.response status body =>
      if 400 ≤ status ∧ status ≤ 599 then ⟨none, true⟩
      else
        match body with
        | some j => ⟨some j, false⟩
        | none => ⟨none, true⟩

/-- A feature is well formed in the sense of claim C4: the five required
property keys are present and `coordinates` is a 3-element array. -/
def wellFormed (f : Feature) : Bool :=
  f.properties.time.isSome && f.properties.mag.isSome &&
  f.properties.place.isSome && f.properties.type.isSome &&
  f.properties.status.isSome &&
  (match f.geometry.coordinates with
   | some cs => cs.length == 3
   | none => false)

/-- A feature has everything `buildRecord` touches: the five required
property keys, and coordinate indices 0, 1, 2 in range. -/
def hasRequiredKeys (f : Feature) : Bool :=
  f.properties.time.isSome && f.properties.mag.isSome &&
  f.properties.place.isSome && f.properties.type.isSome &&
  f.properties.status.isSome &&
  (match f.geometry.coordinates with
   | some cs => 3 ≤ cs.length
   | none => false)

/-- A feature with the `mag` key absent — a malformed record. -/
def badFeature : Feature :=
  ⟨⟨some 0, none, some "somewhere", some "earthquake", some "reviewed"⟩,
   ⟨some [1, 2, 3]⟩⟩

/-- The mocked feature of the end-to-end property: `mag=6.0`,
`place="10km SE of Testville, Nowhereland"`, `coordinates=[-100,40,15]`
(lon, lat, depth), `time` = epoch 0. -/
def testFeature : Feature :=
  ⟨⟨some 0, some 6, some "10km SE of Testville, Nowhereland",
    some "earthquake", some "reviewed"⟩,
   ⟨some [-100, 40, 15]⟩⟩

/-- The enriched row the pipeline produces for `testFeature`. -/
def expectedRow : EnrichedEvent :=
  ⟨0, 6, "10km SE of Testville, Nowhereland", 15, -100, 40,
   "earthquake", "reviewed", some "Nowhereland", some "fuerte",
   some "superficial", "noche", "North America"⟩

/-- A record whose magnitude 12 and depth −5 fall outside every bin. -/
def outOfRangeRecord : BaseRecord :=
  ⟨0, 12, "somewhere", -5, 0, 0, "earthquake", "reviewed"⟩

/- ### Helper lemmas -/

/-- Unfolding `pd.cut` at the magnitude bins. -/
theorem severity_eq (m : ℚ) :
    severity m =
      if 0 < m ∧ m ≤ 3 then some "leve"
      else if 3 < m ∧ m ≤ 5 then some "moderado"
      else if 5 < m ∧ m ≤ 7 then some "fuerte"
      else if 7 < m ∧ m ≤ 10 then some "grave"
      else none := rfl

/-- Unfolding `pd.cut` at the depth bins. -/
theorem depth_category_eq (d : ℚ) :
    depth_category d =
      if 0 < d ∧ d ≤ 30 then some "superficial"
      else if 30 < d ∧ d ≤ 100 then some "intermedio"
      else if 100 < d ∧ d ≤ 300 then some "profundo"
      else if 300 < d ∧ d ≤ 700 then some "manto"
      else none := rfl

/- ### Claim theorems -/

/-- C2: for every magnitude `m` in `(0,10]` the derived severity is one of
the four labels, assigned by the inclusive-upper bins `(0,3] → leve`,
`(3,5] → moderado`, `(5,7] → fuerte`, `(7,10] → grave`; at the boundary,
`m = 3.0 → leve` and `m = 3.0001 → moderado`. -/
theorem severity_binning :
    (∀ m : ℚ, 0 < m → m ≤ 3 → severity m = some "leve") ∧
    (∀ m : ℚ, 3 < m → m ≤ 5 → severity m = some "moderado") ∧
    (∀ m : ℚ, 5 < m → m ≤ 7 → severity m = some "fuerte") ∧
    (∀ m : ℚ, 7 < m → m ≤ 10 → severity m = some "grave") ∧
    (∀ m : ℚ, 0 < m → m ≤ 10 →
      ∃ s ∈ ["leve", "moderado", "fuerte", "grave"], severity m = some s) ∧
    severity 3 = some "leve" ∧ severity 3.0001 = some "moderado" := by
  refine ⟨fun m h1 h2 => ?_, fun m h1 h2 => ?_, fun m h1 h2 => ?_,
    fun m h1 h2 => ?_, fun m h1 h2 => ?_, by norm_num [severity_eq],
    by norm_num [severity_eq]⟩
  · rw [severity_eq, if_pos ⟨h1, h2⟩]
  · rw [severity_eq, if_neg (by rintro ⟨-, h⟩; linarith), if_pos ⟨h1, h2⟩]
  · rw [severity_eq, if_neg (by rintro ⟨-, h⟩; linarith),
      if_neg (by rintro ⟨-, h⟩; linarith), if_pos ⟨h1, h2⟩]
  · rw [severity_eq, if_neg (by rintro ⟨-, h⟩; linarith),
      if_neg (by rintro ⟨-, h⟩; linarith),
      if_neg (by rintro ⟨-, h⟩; linarith), if_pos ⟨h1, h2⟩]
  · rw [severity_eq]
    rcases le_or_lt m 3 with h3 | h3
    · exact ⟨"leve", by simp, by rw [if_pos ⟨h1, h3⟩]⟩
    · rcases le_or_lt m 5 with h5 | h5
      · exact ⟨"moderado", by simp,
          by rw [if_neg (by rintro ⟨-, h⟩; linarith), if_pos ⟨h3, h5⟩]⟩
      · rcases le_or_lt m 7 with h7 | h7
        · exact ⟨"fuerte", by simp,
            by rw [if_neg (by rintro ⟨-, h⟩; linarith),
              if_neg (by rintro ⟨-, h⟩; linarith), if_pos ⟨h5, h7⟩]⟩
        · exact ⟨"grave", by simp,
            by rw [if_neg (by rintro ⟨-, h⟩; linarith),
              if_neg (by rintro ⟨-, h⟩; linarith),
              if_neg (by rintro ⟨-, h⟩; linarith), if_pos ⟨h7, h2⟩]⟩

/-- Concrete instances of `severity_binning`, one per bin, with every
hypothesis discharged numerically. -/
theorem severity_binning_witness :
    severity 1 = some "leve" ∧ severity 4 = some "moderado" ∧
    severity 6 = some "fuerte" ∧ severity 8 = some "grave" ∧
    (∃ s ∈ ["leve", "moderado", "fuerte", "grave"], severity 8 = some s) :=
  ⟨severity_binning.1 1 (by norm_num) (by norm_num),
   severity_binning.2.1 4 (by norm_num) (by norm_num),
   severity_binning.2.2.1 6 (by norm_num) (by norm_num),
   severity_binning.2.2.2.1 8 (by norm_num) (by norm_num),
   severity_binning.2.2.2.2.1 8 (by norm_num) (by norm_num)⟩

/-- C3: for every depth `d` the derived depth category follows the
inclusive-upper bins `(0,30] → superficial`, `(30,100] → intermedio`,
`(100,300] → profundo`, `(300,700] → manto`; at the boundary,
`d = 30 → superficial` and `d = 30.0001 → intermedio`. -/
theorem depth_binning :
    (∀ d : ℚ, 0 < d → d ≤ 30 → depth_category d = some "superficial") ∧
    (∀ d : ℚ, 30 < d → d ≤ 100 → depth_category d = some "intermedio") ∧
    (∀ d : ℚ, 100 < d → d ≤ 300 → depth_category d = some "profundo") ∧
    (∀ d : ℚ, 300 < d → d ≤ 700 → depth_category d = some "manto") ∧
    depth_category 30 = some "superficial" ∧
    depth_category 30.0001 = some "intermedio" := by
  refine ⟨fun d h1 h2 => ?_, fun d h1 h2 => ?_, fun d h1 h2 => ?_,
    fun d h1 h2 => ?_, by norm_num [depth_category_eq],
    by norm_num [depth_category_eq]⟩
  · rw [depth_category_eq, if_pos ⟨h1, h2⟩]
  · rw [depth_category_eq, if_neg (by rintro ⟨-, h⟩; linarith), if_pos ⟨h1, h2⟩]
  · rw [depth_category_eq, if_neg (by rintro ⟨-, h⟩; linarith),
      if_neg (by rintro ⟨-, h⟩; linarith), if_pos ⟨h1, h2⟩]
  · rw [depth_category_eq, if_neg (by rintro ⟨-, h⟩; linarith),
      if_neg (by rintro ⟨-, h⟩; linarith),
      if_neg (by rintro ⟨-, h⟩; linarith), if_pos ⟨h1, h2⟩]

/-- Concrete instances of `depth_binning`, one per bin. -/
theorem depth_binning_witness :
    depth_category 10 = some "superficial" ∧
    depth_category 50 = some "intermedio" ∧
    depth_category 200 = some "profundo" ∧
    depth_category 500 = some "manto" :=
  ⟨depth_binning.1 10 (by norm_num) (by norm_num),
   depth_binning.2.1 50 (by norm_num) (by norm_num),
   depth_binning.2.2.1 200 (by norm_num) (by norm_num),
   depth_binning.2.2.2.1 500 (by norm_num) (by norm_num)⟩

/-- C10: a row whose magnitude lies outside `(0,10]` gets a missing
severity, and a row whose depth lies outside `(0,700]` — including depth
exactly 0 and negative depths — gets a missing depth category; the
binning never places an out-of-range value in a bucket. -/
theorem out_of_range_unbinned :
    (∀ b : BaseRecord, b.magnitude ≤ 0 ∨ 10 < b.magnitude →
      (enrich b).severity = none) ∧
    (∀ b : BaseRecord, b.depth_km ≤ 0 ∨ 700 < b.depth_km →
      (enrich b).depth_category = none) ∧
    severity 0 = none ∧ severity 10.5 = none ∧
    depth_category 0 = none ∧ depth_category (-5) = none := by
  refine ⟨fun b hb => ?_, fun b hb => ?_, by norm_num [severity_eq],
    by norm_num [severity_eq], by norm_num [depth_category_eq],
    by norm_num [depth_category_eq]⟩
  · show severity b.magnitude = none
    rw [severity_eq]
    rcases hb with h | h <;>
      · rw [if_neg (by rintro ⟨h1, h2⟩; linarith),
          if_neg (by rintro ⟨h1, h2⟩; linarith),
          if_neg (by rintro ⟨h1, h2⟩; linarith),
          if_neg (by rintro ⟨h1, h2⟩; linarith)]
  · show depth_category b.depth_km = none
    rw [depth_category_eq]
    rcases hb with h | h <;>
      · rw [if_neg (by rintro ⟨h1, h2⟩; linarith),
          if_neg (by rintro ⟨h1, h2⟩; linarith),
          if_neg (by rintro ⟨h1, h2⟩; linarith),
          if_neg (by rintro ⟨h1, h2⟩; linarith)]

/-- `out_of_range_unbinned` applied to the concrete record with magnitude
12 and depth −5. -/
theorem out_of_range_unbinned_witness :
    (enrich outOfRangeRecord).severity = none ∧
    (enrich outOfRangeRecord).depth_category = none :=
  ⟨out_of_range_unbinned.1 outOfRangeRecord (Or.inr (by norm_num [outOfRangeRecord])),
   out_of_range_unbinned.2.1 outOfRangeRecord (Or.inl (by norm_num [outOfRangeRecord]))⟩

/-- A list with no comma has no last-comma suffix. -/
theorem no_comma_suffix_none : ∀ cs : List Char,
    cs.all (fun c => c != ',') = true → suffixAfterLastComma cs = none := by
  intro cs
  induction cs with
  | nil => intro _; rfl
  | cons c cs ih =>
    intro h
    rw [List.all_cons, Bool.and_eq_true] at h
    have hc : ¬ c = ',' := by simpa using h.1
    simp only [suffixAfterLastComma, ih h.2, if_neg hc]

/-- If no comma was found, the list had none. -/
theorem suffix_none_no_comma : ∀ cs : List Char,
    suffixAfterLastComma cs = none → cs.all (fun c => c != ',') = true := by
  intro cs
  induction cs with
  | nil => intro _; rfl
  | cons c cs ih =>
    intro h
    simp only [suffixAfterLastComma] at h
    cases hs : suffixAfterLastComma cs with
    | some t => rw [hs] at h; exact absurd h (by simp)
    | none =>
      rw [hs] at h
      by_cases hc : c = ','
      · rw [if_pos hc] at h; exact absurd h (by simp)
      · rw [List.all_cons, Bool.and_eq_true]
        exact ⟨by simpa using hc, ih hs⟩

/-- The suffix after the last comma is comma-free. -/
theorem suffix_some_no_comma : ∀ cs t : List Char,
    suffixAfterLastComma cs = some t → t.all (fun c => c != ',') = true := by
  intro cs
  induction cs with
  | nil => intro t h; exact absurd h (by simp [suffixAfterLastComma])
  | cons c cs ih =>
    intro t h
    simp only [suffixAfterLastComma] at h
    cases hs : suffixAfterLastComma cs with
    | some u => rw [hs] at h; cases h; exact ih t hs
    | none =>
      rw [hs] at h
      by_cases hc : c = ','
      · rw [if_pos hc] at h
        cases h
        exact suffix_none_no_comma cs hs
      · rw [if_neg hc] at h; exact absurd h (by simp)

/-- A nonempty list has a last element. -/
theorem getLast?_cons_isSome : ∀ (c : Char) (cs : List Char),
    ((c :: cs).getLast?).isSome = true := by
  intro c cs
  induction cs generalizing c with
  | nil => rfl
  | cons c' cs' ih => rw [List.getLast?_cons_cons]; exact ih c'

/-- A nonempty text always has a trimmed suffix. -/
theorem trimmedSuffix_cons_isSome (c : Char) (cs : List Char) :
    (trimmedSuffix (c :: cs)).isSome = true := by
  unfold trimmedSuffix
  rw [if_neg (by simp)]
  show (if (!(List.dropWhile isPySpace (c :: cs)).isEmpty) = true
      then some (List.dropWhile isPySpace (c :: cs))
      else Option.map (fun c => [c]) (c :: cs).getLast?).isSome = true
  split
  · rfl
  · obtain ⟨x, hx⟩ := Option.isSome_iff_exists.mp (getLast?_cons_isSome c cs)
    rw [hx]
    rfl

/-- Leading whitespace before a nonempty remainder does not change the
trimmed suffix. -/
theorem trimmedSuffix_cons_space (c : Char) (cs : List Char)
    (hsp : isPySpace c = true) (hne : cs ≠ []) :
    trimmedSuffix (c :: cs) = trimmedSuffix cs := by
  simp only [trimmedSuffix, List.isEmpty_cons, Bool.false_eq_true, if_false,
    List.isEmpty_eq_true, if_neg hne, List.dropWhile_cons, hsp, if_true]
  split
  · rfl
  · cases cs with
    | nil => exact absurd rfl hne
    | cons c' cs' => rw [List.getLast?_cons_cons]

/-- On comma-free text, the backtracking run of `\s*([^,]+)$` computes
exactly the whitespace-trimmed suffix. -/
theorem wsStar_eq_trimmed : ∀ t : List Char,
    t.all (fun c => c != ',') = true → wsStarThenCapture t = trimmedSuffix t := by
  intro t
  induction t with
  | nil => intro _; rfl
  | cons c cs ih =>
    intro h
    rw [List.all_cons, Bool.and_eq_true] at h
    have hc : c ≠ ',' := by simpa using h.1
    by_cases hsp : isPySpace c = true
    · rw [show wsStarThenCapture (c :: cs) =
          (match wsStarThenCapture cs with
           | some r => some r
           | none => plusNotCommaToEnd (c :: cs)) from by
        simp [wsStarThenCapture, hsp]]
      rw [ih h.2]
      cases cs with
      | nil =>
        rw [show trimmedSuffix ([] : List Char) = none from rfl]
        have h1 : plusNotCommaToEnd [c] = some [c] := by
          simp [plusNotCommaToEnd, hc]
        have h2 : trimmedSuffix [c] = some [c] := by
          simp [trimmedSuffix, List.dropWhile_cons, hsp]
        simp [h1, h2]
      | cons c' cs' =>
        obtain ⟨r, hr⟩ := Option.isSome_iff_exists.mp (trimmedSuffix_cons_isSome c' cs')
        rw [hr, trimmedSuffix_cons_space c (c' :: cs') hsp (by simp), hr]
    · rw [show wsStarThenCapture (c :: cs) = plusNotCommaToEnd (c :: cs) from by
        simp [wsStarThenCapture, hsp]]
      have hall : (c :: cs).all (fun x => x != ',') = true := by
        rw [List.all_cons, Bool.and_eq_true]; exact ⟨by simpa using hc, h.2⟩
      simp only [plusNotCommaToEnd, List.isEmpty_cons, Bool.not_false, hall,
        Bool.true_and, if_pos]
      simp only [trimmedSuffix, List.isEmpty_cons, Bool.false_eq_true, if_false,
        List.dropWhile_cons, hsp, Bool.false_eq_true, if_false,
        List.isEmpty_cons, Bool.not_false, if_pos]

/-- C8 counterexample: the literal reading of the claim — region = the
substring after the final comma, absent only when there is no comma —
disagrees with the code on whitespace after the comma and on a trailing
comma: the regex trims the leading whitespace of the last token and fails
on an empty token. -/
theorem region_literal_cex :
    extractRegion "a, b" = some "b" ∧ regionSpecLiteral "a, b" = some " b" ∧
    extractRegion "abc," = none ∧ regionSpecLiteral "abc," = some "" := by
  refine ⟨?_, ?_, ?_, ?_⟩ <;> rfl

/-- C8 (amended): the derived region is the suffix of `place` after its
final comma with leading whitespace removed (degenerately, the last
character when only whitespace follows the comma); it is missing when
`place` has no comma or when nothing follows the final comma; e.g.
`place = "10km SE of Testville, Nowhereland"` yields `"Nowhereland"`. -/
theorem region_extraction :
    (∀ s : String, extractRegion s = regionDescribed s) ∧
    extractRegion "10km SE of Testville, Nowhereland" = some "Nowhereland" ∧
    (∀ s : String, s.data.all (fun c => c != ',') = true →
      extractRegion s = none) := by
  refine ⟨fun s => ?_, rfl, fun s h => ?_⟩
  · simp only [extractRegion, regionDescribed]
    cases hs : suffixAfterLastComma s.data with
    | none => rfl
    | some t =>
      show (wsStarThenCapture t).map (fun l => String.mk l) =
        (trimmedSuffix t).map (fun l => String.mk l)
      rw [wsStar_eq_trimmed t (suffix_some_no_comma s.data t hs)]
  · simp only [extractRegion, no_comma_suffix_none s.data h]

/-- `region_extraction` at concrete places: the spec example, and a
comma-free place with its hypothesis checked by evaluation. -/
theorem region_extraction_witness :
    extractRegion "Somewhere" = regionDescribed "Somewhere" ∧
    (("Somewhere" : String).data.all (fun c => c != ',') = true ∧
      extractRegion "Somewhere" = none) :=
  ⟨region_extraction.1 "Somewhere",
   by decide, region_extraction.2.2 "Somewhere" (by decide)⟩

/-- The nested-ifs classifier coincides with the ordered first-match scan
of `continentBoxes`. -/
theorem get_continent_eq_firstMatch (lat lon : ℚ) :
    get_continent lat lon = firstMatchContinent lat lon := by
  unfold get_continent firstMatchContinent continentBoxes
  by_cases h1 : -120 ≤ lon ∧ lon ≤ -30 ∧ 30 ≤ lat ∧ lat ≤ 70
  · rw [if_pos h1, List.find?_cons_of_pos _ (by simpa [inBox] using h1)]
  rw [if_neg h1, List.find?_cons_of_neg _ (by simpa [inBox] using h1)]
  by_cases h2 : -20 ≤ lon ∧ lon ≤ 50 ∧ -35 ≤ lat ∧ lat ≤ 37
  · rw [if_pos h2, List.find?_cons_of_pos _ (by simpa [inBox] using h2)]
  rw [if_neg h2, List.find?_cons_of_neg _ (by simpa [inBox] using h2)]
  by_cases h3 : -10 ≤ lon ∧ lon ≤ 40 ∧ 35 ≤ lat ∧ lat ≤ 70
  · rw [if_pos h3, List.find?_cons_of_pos _ (by simpa [inBox] using h3)]
  rw [if_neg h3, List.find?_cons_of_neg _ (by simpa [inBox] using h3)]
  by_cases h4 : 60 ≤ lon ∧ lon ≤ 150 ∧ 5 ≤ lat ∧ lat ≤ 45
  · rw [if_pos h4, List.find?_cons_of_pos _ (by simpa [inBox] using h4)]
  rw [if_neg h4, List.find?_cons_of_neg _ (by simpa [inBox] using h4)]
  by_cases h5 : 110 ≤ lon ∧ lon ≤ 180 ∧ -50 ≤ lat ∧ lat ≤ -10
  · rw [if_pos h5, List.find?_cons_of_pos _ (by simpa [inBox] using h5)]
  rw [if_neg h5, List.find?_cons_of_neg _ (by simpa [inBox] using h5)]
  by_cases h6 : -90 ≤ lon ∧ lon ≤ -30 ∧ -60 ≤ lat ∧ lat ≤ 15
  · rw [if_pos h6, List.find?_cons_of_pos _ (by simpa [inBox] using h6)]
  rw [if_neg h6, List.find?_cons_of_neg _ (by simpa [inBox] using h6)]
  rfl

/-- `"Ocean"` comes out exactly when the point is outside all six boxes. -/
theorem get_continent_ocean_iff (lat lon : ℚ) :
    get_continent lat lon = "Ocean" ↔
      continentBoxes.all
        (fun b => !(inBox b.2.1 b.2.2.1 b.2.2.2.1 b.2.2.2.2 lat lon)) = true := by
  rw [get_continent_eq_firstMatch lat lon, List.all_eq_true]
  unfold firstMatchContinent
  cases hf : continentBoxes.find?
      (fun b => inBox b.2.1 b.2.2.1 b.2.2.2.1 b.2.2.2.2 lat lon) with
  | none =>
    constructor
    · intro _ b hb
      have hnp := List.find?_eq_none.mp hf b hb
      simpa using hnp
    · intro _; rfl
  | some b =>
    constructor
    · intro hb1
      exfalso
      have hmem : b ∈ continentBoxes := List.mem_of_find?_eq_some hf
      simp only [continentBoxes, List.mem_cons, List.not_mem_nil, or_false] at hmem
      rcases hmem with rfl | rfl | rfl | rfl | rfl | rfl <;> exact absurd hb1 (by decide)
    · intro hall
      exfalso
      have hp := List.find?_some hf
      have hnp := hall b (List.mem_of_find?_eq_some hf)
      rw [Bool.not_eq_true'] at hnp
      rw [hnp] at hp
      exact absurd hp (by decide)

/-- C1: the continent classifier is a total, deterministic function of
(latitude, longitude) into the seven labels; the bounding boxes are
checked in the fixed source order with the first match winning (the point
lat=36, lon=0 lies in both the Africa and Europe boxes and yields
`"Africa"`); `"Ocean"` is returned exactly when no box matches; and
`classifier(40, -100) = "North America"`, `classifier(-80, 0) = "Ocean"`. -/
theorem continent_classifier_spec :
    (∀ lat lon : ℚ, get_continent lat lon ∈ continentLabels) ∧
    (∀ lat lon : ℚ, get_continent lat lon = firstMatchContinent lat lon) ∧
    (∀ lat lon : ℚ, get_continent lat lon = "Ocean" ↔
      continentBoxes.all
        (fun b => !(inBox b.2.1 b.2.2.1 b.2.2.2.1 b.2.2.2.2 lat lon)) = true) ∧
    inBox (-20) 50 (-35) 37 36 0 = true ∧
    inBox (-10) 40 35 70 36 0 = true ∧
    get_continent 36 0 = "Africa" ∧
    get_continent 40 (-100) = "North America" ∧
    get_continent (-80) 0 = "Ocean" := by
  refine ⟨fun lat lon => ?_, get_continent_eq_firstMatch, get_continent_ocean_iff,
    by decide, by decide, by decide, by decide, by decide⟩
  unfold get_continent continentLabels
  split_ifs <;> simp

/-- Unfolding of the feature loop on a cons cell. -/
theorem buildRecords_cons (g : Feature) (gs : List Feature) :
    buildRecords (g :: gs) =
      (buildRecord g).bind
        (fun b => (buildRecords gs).bind (fun bs => Except.ok (b :: bs))) := rfl

/-- Unfolding of `process_data` on a present document. -/
theorem process_data_some (rd : RawData) :
    process_data (some rd) =
      (buildRecords rd.features).bind
        (fun base =>
          if base.isEmpty then Except.error "KeyError: time"
          else Except.ok (base.map enrich)) := rfl

/-- A well-formed feature yields its flat record. -/
theorem buildRecord_ok_of_wellFormed (f : Feature) (h : wellFormed f = true) :
    ∃ b, buildRecord f = Except.ok b := by
  obtain ⟨⟨t, m, p, ty, st⟩, ⟨co⟩⟩ := f
  simp only [wellFormed, Bool.and_eq_true] at h
  obtain ⟨⟨⟨⟨⟨ht, hm⟩, hp⟩, hty⟩, hst⟩, hco⟩ := h
  obtain ⟨tv, rfl⟩ := Option.isSome_iff_exists.mp ht
  obtain ⟨mv, rfl⟩ := Option.isSome_iff_exists.mp hm
  obtain ⟨pv, rfl⟩ := Option.isSome_iff_exists.mp hp
  obtain ⟨tyv, rfl⟩ := Option.isSome_iff_exists.mp hty
  obtain ⟨stv, rfl⟩ := Option.isSome_iff_exists.mp hst
  cases co with
  | none => simp at hco
  | some cs =>
    have hlen : cs.length = 3 := by simpa using hco
    obtain ⟨a, b, c, rfl⟩ := List.length_eq_three.mp hlen
    exact ⟨⟨tv, mv, pv, c, a, b, tyv, stv⟩, rfl⟩

/-- A list of well-formed features yields one record per feature. -/
theorem buildRecords_ok_of_all : ∀ l : List Feature,
    (∀ f ∈ l, wellFormed f = true) →
    ∃ bs, buildRecords l = Except.ok bs ∧ bs.length = l.length := by
  intro l
  induction l with
  | nil => intro _; exact ⟨[], rfl, rfl⟩
  | cons f fs ih =>
    intro h
    obtain ⟨b, hb⟩ := buildRecord_ok_of_wellFormed f (h f (by simp))
    obtain ⟨bs, hbs, hlen⟩ := ih (fun g hg => h g (by simp [hg]))
    refine ⟨b :: bs, ?_, by simp [hlen]⟩
    rw [buildRecords_cons, hb]
    show (buildRecords fs).bind (fun bs => Except.ok (b :: bs)) = _
    rw [hbs]
    rfl

/-- A record can only be built when every required key is present and the
coordinate array has at least the three accessed entries. -/
theorem buildRecord_ok_hasKeys (f : Feature) (b : BaseRecord)
    (h : buildRecord f = Except.ok b) : hasRequiredKeys f = true := by
  obtain ⟨⟨t, m, p, ty, st⟩, ⟨co⟩⟩ := f
  cases t with
  | none => exact Except.noConfusion h
  | some tv =>
  cases m with
  | none => exact Except.noConfusion h
  | some mv =>
  cases p with
  | none => exact Except.noConfusion h
  | some pv =>
  cases co with
  | none => exact Except.noConfusion h
  | some cs =>
  rcases cs with _ | ⟨a, _ | ⟨a2, _ | ⟨a3, rest⟩⟩⟩
  · exact Except.noConfusion h
  · exact Except.noConfusion h
  · exact Except.noConfusion h
  · cases ty with
    | none => exact Except.noConfusion h
    | some tyv =>
    cases st with
    | none => exact Except.noConfusion h
    | some stv =>
    simp [hasRequiredKeys]

/-- One feature with a missing requirement aborts the whole loop. -/
theorem buildRecords_error_of_bad : ∀ (l : List Feature) (f : Feature),
    f ∈ l → hasRequiredKeys f = false →
    ∃ e, buildRecords l = Except.error e := by
  intro l
  induction l with
  | nil => intro f hf _; exact absurd hf (List.not_mem_nil f)
  | cons g gs ih =>
    intro f hf hbad
    cases hb : buildRecord g with
    | error e =>
      refine ⟨e, ?_⟩
      rw [buildRecords_cons, hb]
      rfl
    | ok b =>
      rcases List.mem_cons.mp hf with rfl | hf'
      · rw [buildRecord_ok_hasKeys f b hb] at hbad
        exact absurd hbad (by simp)
      · obtain ⟨e, he⟩ := ih f hf' hbad
        refine ⟨e, ?_⟩
        rw [buildRecords_cons, hb]
        show (buildRecords gs).bind (fun bs => Except.ok (b :: bs)) = _
        rw [he]
        rfl

/-- C4 counterexample: on the well-formed feature collection with zero
features the transformer does not produce a 0-row table — it aborts,
because `pd.DataFrame([])` has no columns and the first column derivation
raises `KeyError`. -/
theorem empty_collection_count_cex :
    process_data (some (RawData.mk [])) = Except.error "KeyError: time" ∧
    (Except.error "KeyError: time" :
      Except String (List EnrichedEvent)) ≠ Except.ok [] :=
  ⟨rfl, fun h => Except.noConfusion h⟩

/-- C4 (amended): for every non-null, well-formed feature collection with
at least one feature, the enriched table has exactly as many rows as the
features list — nothing is filtered, nothing is duplicated. -/
theorem row_count_preserved :
    ∀ rd : RawData, rd.features ≠ [] →
    (∀ f ∈ rd.features, wellFormed f = true) →
    ∃ rows, process_data (some rd) = Except.ok rows ∧
      rows.length = rd.features.length := by
  intro rd hne hwf
  obtain ⟨bs, hbs, hlen⟩ := buildRecords_ok_of_all rd.features hwf
  refine ⟨bs.map enrich, ?_, by simp [hlen]⟩
  rw [process_data_some, hbs]
  show (if bs.isEmpty then Except.error "KeyError: time"
      else Except.ok (bs.map enrich)) = Except.ok (bs.map enrich)
  have hbe : bs.isEmpty = false := by
    cases bs with
    | nil => exact absurd (List.length_eq_zero.mp hlen.symm) hne
    | cons b bs' => rfl
  rw [hbe]
  rfl

/-- `row_count_preserved` on the one-feature collection. -/
theorem row_count_preserved_witness :
    (RawData.mk [testFeature]).features ≠ [] ∧
    ∃ rows, process_data (some (RawData.mk [testFeature])) = Except.ok rows ∧
      rows.length = (RawData.mk [testFeature]).features.length :=
  ⟨by simp,
   row_count_preserved (RawData.mk [testFeature]) (by simp) (by
     intro f hf
     rw [List.mem_singleton] at hf
     subst hf
     decide)⟩

/-- C5 counterexample: a feature collection with an empty features list
does not give an empty table; the transformation aborts. -/
theorem empty_collection_no_table_cex :
    ¬ ∃ rows, process_data (some (RawData.mk [])) = Except.ok rows := by
  rintro ⟨rows, h⟩
  rw [show process_data (some (RawData.mk [])) =
      Except.error "KeyError: time" from rfl] at h
  exact Except.noConfusion h

/-- C5 (amended): on absent/null input the transformer returns an empty
table; on a collection with no features it aborts with `KeyError: time`
(the empty frame has no columns to derive); and the writer given an empty
table writes no file and prints the no-data message. -/
theorem empty_input_behavior :
    process_data none = Except.ok [] ∧
    process_data (some (RawData.mk [])) = Except.error "KeyError: time" ∧
    ∀ fname : String,
      save_to_csv [] fname = ⟨false, "No hay datos para guardar"⟩ :=
  ⟨rfl, rfl, fun _ => rfl⟩

/-- C6: if any feature lacks one of the required keys (or a coordinate
index), the entire transformation fails with an error: no partial table
is produced, however many other features are well-formed. -/
theorem malformed_feature_aborts :
    ∀ rd : RawData, (∃ f ∈ rd.features, hasRequiredKeys f = false) →
    ∃ e, process_data (some rd) = Except.error e := by
  rintro rd ⟨f, hf, hbad⟩
  obtain ⟨e, he⟩ := buildRecords_error_of_bad rd.features f hf hbad
  refine ⟨e, ?_⟩
  rw [process_data_some, he]
  rfl

/-- `malformed_feature_aborts` on a collection holding one good feature
and one feature with the `mag` key missing. -/
theorem malformed_feature_aborts_witness :
    ∃ e, process_data (some (RawData.mk [testFeature, badFeature])) =
      Except.error e :=
  malformed_feature_aborts (RawData.mk [testFeature, badFeature])
    ⟨badFeature, by simp, by decide⟩

/-- C9: end to end, the collection containing exactly `testFeature`
(mag=6.0, place="10km SE of Testville, Nowhereland",
coordinates=[-100,40,15], time=0) yields exactly one row, with
severity `"fuerte"`, depth category `"superficial"`, region
`"Nowhereland"` and continent `"North America"`. -/
theorem end_to_end_single_feature :
    process_data (some (RawData.mk [testFeature])) = Except.ok [expectedRow] ∧
    expectedRow.severity = some "fuerte" ∧
    expectedRow.depth_category = some "superficial" ∧
    expectedRow.region = some "Nowhereland" ∧
    expectedRow.continent = "North America" :=
  ⟨rfl, rfl, rfl, rfl, rfl⟩

/-- C7 counterexample: a non-2xx response that is not a 4xx/5xx error is
NOT converted to a null result — `raise_for_status()` only raises for
400–599, so e.g. a 304 with a JSON body is returned as data, with no
error logged. -/
theorem fetch_redirect_status_cex :
    (304 < 200 ∨ 299 < 304) ∧
    fetch_earthquake_data (HttpOutcome.response 304 (some (RawData.mk []))) =
      ⟨some (RawData.mk []), false⟩ :=
  ⟨Or.inr (by norm_num), rfl⟩

/-- C7 (amended): the fetcher never propagates a request error: any
connection error or timeout, and any 4xx/5xx HTTP status, is caught,
logged and turned into a null result; a 2xx response with a parseable
JSON body is returned parsed. -/
theorem fetch_error_handling :
    (∀ msg, fetch_earthquake_data (HttpOutcome.requestError msg) =
      ⟨none, true⟩) ∧
    (∀ msg, fetch_earthquake_data (HttpOutcome.timeout msg) = ⟨none, true⟩) ∧
    (∀ (status : Nat) (body : Option RawData), 400 ≤ status → status ≤ 599 →
      fetch_earthquake_data (HttpOutcome.response status body) =
        ⟨none, true⟩) ∧
    (∀ (status : Nat) (j : RawData), 200 ≤ status → status ≤ 299 →
      fetch_earthquake_data (HttpOutcome.response status (some j)) =
        ⟨some j, false⟩) := by
  refine ⟨fun _ => rfl, fun _ => rfl, fun status body h1 h2 => ?_,
    fun status j h1 h2 => ?_⟩
  · simp only [fetch_earthquake_data]
    rw [if_pos ⟨h1, h2⟩]
  · simp only [fetch_earthquake_data]
    rw [if_neg (by rintro ⟨h3, -⟩; omega)]

/-- `fetch_error_handling` at a 404 and at a 200 with a parsed body. -/
theorem fetch_error_handling_witness :
    fetch_earthquake_data (HttpOutcome.response 404 none) = ⟨none, true⟩ ∧
    fetch_earthquake_data (HttpOutcome.response 200 (some (RawData.mk []))) =
      ⟨some (RawData.mk []), false⟩ :=
  ⟨fetch_error_handling.2.2.1 404 none (by norm_num) (by norm_num),
   fetch_error_handling.2.2.2 200 (RawData.mk []) (by norm_num) (by norm_num)⟩

end EarthquakeETL
